import Mathlib

/-!
Verification of the authorization and vote-state subsystem of a FastAPI
social-media service: the token service (`app/routers/oauth2.py`), the
ownership guard (`verify_post_owner` in `app/models.py`), and the vote
engine (`like_post` in `app/routers/post.py` with `VoteManager` in
`app/database_functions.py`).

The relational store is embedded as explicit lists of rows (`posts` and
`post_likes`, with the schema of `app/create_database.py`).  SQL reads
are list filters, SQL writes produce a new store.  JWT signing is the
standard symbolic model: a token records its payload and the key it was
signed with, and signature verification succeeds exactly when the keys
match.
-/

namespace SocialApp

/-- A JSON-ish claim value carried in a token payload. -/
inductive JValue where
  | str (s : String)
  | num (n : Int)
  | boolean (b : Bool)
deriving DecidableEq, Repr

/-- Claims maps (Python dicts of `create_access_token`) as association
lists, first binding wins on lookup. -/
abbrev Claims := List (String × JValue)

/-- Python `dict.update` with a single key: replace the value in place if
the key is present, otherwise append the new binding at the end. -/
def dictUpdate (d : Claims) (k : String) (v : JValue) : Claims :=
  if (d.map Prod.fst).contains k then
    d.map (fun p => if p.1 = k then (k, v) else p)
  else
    d ++ [(k, v)]

/-- A signed JWT in the symbolic model: the payload together with the
secret it was signed with (`jwt.encode(to_encode, SECRET_KEY, ...)`).
Verification against a key succeeds iff `macKey` equals that key. -/
structure Token where
  payload : Claims
  macKey : String
deriving DecidableEq, Repr

/-- `create_access_token` (`oauth2.py`): copy the claims, set the `exp`
claim to now plus the configured TTL in minutes, sign with the shared
secret.  Timestamps are unix seconds as integers. -/
def create_access_token (secret : String) (ttlMinutes : Int) (now : Int)
    (data : Claims) : Token :=
  { payload := dictUpdate data "exp" (.num (now + ttlMinutes * 60)),
    macKey := secret }

/-- One whitespace-separated word of an `Authorization` header as produced
by `Authorization.split(" ")`: either a well-formed serialized token or
any other string. -/
inductive Word where
  | tok (t : Token)
  | junk (s : String)
deriving DecidableEq, Repr

/-- Outcome of `decode_access_token`: the decoded claims, an
`HTTPException(status, detail)`, or an uncaught Python `IndexError`
escaping the function (no `HTTPException` is raised for it). -/
inductive DecodeResult where
  | ok (claims : Claims)
  | httpError (status : Nat) (detail : String)
  | indexError
deriving DecidableEq, Repr

/-- First `exp` claim of a payload, when present. -/
def expClaim (payload : Claims) : Option JValue :=
  (payload.find? (fun p => p.1 = "exp")).map Prod.snd

/-- `decode_access_token` (`oauth2.py`).  The header is `none` when absent,
otherwise the word list `Authorization.split(" ")`.  `parts[1]` on a list
with fewer than two words raises `IndexError`.  `jwt.decode` verifies the
signature (here: key equality), then the `exp` claim: a non-integer `exp`
is a `DecodeError` and an `exp ≤ now` is an `ExpiredSignatureError`
(pyjwt treats `exp <= now` as expired at zero leeway); both `DecodeError`
and a malformed token surface as `InvalidTokenError` → 401 Invalid token. -/
def decode_access_token (secret : String) (now : Int)
    (authorization : Option (List Word)) : DecodeResult :=
  match authorization with
  | none => .httpError 401 "Authorization header missing"
  | some parts =>
    match parts.get? 1 with
    | none => .indexError
    | some (.junk _) => .httpError 401 "Invalid token"
    | some (.tok t) =>
      if t.macKey = secret then
        match expClaim t.payload with
        | some (.num e) =>
          if e ≤ now then .httpError 401 "Token has expired"
          else .ok t.payload
        | some _ => .httpError 401 "Invalid token"
        | none => .ok t.payload
      else .httpError 401 "Invalid token"

/-- A row of the `posts` table; `email` is the nullable owner column. -/
structure PostRow where
  id : Int
  email : Option String
deriving DecidableEq, Repr

/-- A row of the `post_likes` table (timestamp columns omitted: no claim
mentions them). -/
structure VoteRow where
  post_id : Int
  email : String
  current_status : Int
deriving DecidableEq, Repr

/-- The relational store visible to the claims: the `posts` and
`post_likes` tables as row lists. -/
structure Store where
  posts : List PostRow
  post_likes : List VoteRow
deriving DecidableEq, Repr

/-- Outcome of `verify_post_owner`: fall through (success) or an
`HTTPException`. -/
inductive VerifyResult where
  | ok
  | httpError (status : Nat) (detail : String)
deriving DecidableEq, Repr

/-- `verify_post_owner` (`models.py`): `SELECT email FROM posts WHERE id =
post_id`; empty result → 403 does-not-exist; the `email` of the first row NULL →
403 development post; owner different from the caller → 403 not
authorized; otherwise fall through. -/
def verify_post_owner (store : Store) (post_id : Int)
    (current_user_email : String) (method : String) : VerifyResult :=
  match store.posts.find? (fun p => p.id = post_id) with
  | none =>
    .httpError 403 ("The post you are trying to " ++ method ++ " does not exist.")
  | some p =>
    match p.email with
    | none =>
      .httpError 403 ("This is a development post, unauthorized users cannot "
        ++ method ++ " it.")
    | some post_owner_email =>
      if post_owner_email = current_user_email then .ok
      else
        .httpError 403 ("The post is owned by " ++ post_owner_email ++ ", "
          ++ current_user_email ++ " is not authorized to " ++ method ++ " it.")

/-- Rows of `FROM posts p JOIN post_likes pl ON pl.post_id = p.id`:
for each post, the vote rows pointing to it. -/
def joinRows (store : Store) : List VoteRow :=
  store.posts.flatMap (fun p => store.post_likes.filter (fun v => v.post_id = p.id))

/-- `SUM(CASE WHEN current_status > 0 THEN 1 ELSE 0 END)` over the join. -/
def total_likes (store : Store) : Int :=
  ((joinRows store).filter (fun v => 0 < v.current_status)).length

/-- `SUM(CASE WHEN current_status = -1 THEN 1 ELSE 0 END)` over the join. -/
def total_negative_votes (store : Store) : Int :=
  ((joinRows store).filter (fun v => v.current_status = -1)).length

/-- `COUNT(current_status)` over the join (`current_status` is NOT NULL,
so every joined row counts). -/
def total_interactions (store : Store) : Int :=
  (joinRows store).length

/-- Does a vote row for this (post, voter) pair match?  The `WHERE
post_id = :id AND email = :email` predicate of the lookup in `like_post`
and of the UPDATE in `VoteManager`. -/
def sameVote (id_ : Int) (email : String) (v : VoteRow) : Bool :=
  v.post_id = id_ && v.email = email

/-- `VoteManager` with method `add_new_vote`: INSERT a row.  The deployed
schema (`create_database.py`) has `FOREIGN KEY (post_id) REFERENCES
posts(id)`, so the INSERT is accepted only when the post exists; a
violation raises through `VoteManager` as a store-level error. -/
def addNewVote (store : Store) (id_ : Int) (email : String)
    (current_status : Int) : Option Store :=
  if store.posts.any (fun p => p.id = id_) then
    some { store with post_likes := store.post_likes ++ [⟨id_, email, current_status⟩] }
  else
    none

/-- `VoteManager` with method `update_vote`: UPDATE `current_status` on every
row matching the (post, voter) pair. -/
def updateVote (store : Store) (id_ : Int) (email : String)
    (current_status : Int) : Store :=
  { store with
    post_likes := store.post_likes.map (fun v =>
      if sameVote id_ email v then { v with current_status := current_status } else v) }

/-- Outcome of `like_post`: success carries the new store and the three
returned aggregate counts; `httpError` is a raised `HTTPException`;
`storeError` is a database exception escaping uncaught (e.g. the INSERT
rejected by the foreign key on `posts`). -/
inductive LikeResult where
  | ok (store : Store) (total_likes total_negative_votes total_interactions : Int)
  | httpError (status : Nat) (detail : String)
  | storeError
deriving DecidableEq, Repr

/-- `like_post` (`post.py`).  Validate the direction; look up the
vote rows for the post (`read_table` always returns a DataFrame, never
`None`, so the `is None` 404 branch is unreachable); empty → INSERT with
status 1; otherwise UPDATE with `direction` when `direction >= 0`, and
with `abs(last) + direction` when `direction == -1`; finally recompute
the aggregates over the posts × post_likes join. -/
def like_post (store : Store) (user_email : String)
    (direction_of_vote : Int) (id_ : Int) : LikeResult :=
  if direction_of_vote ≠ -1 ∧ direction_of_vote ≠ 0 ∧ direction_of_vote ≠ 1 then
    .httpError 401 "Forbidden, user can only like, dislike, or neutralize."
  else
    let user_post_like_status := store.post_likes.filter (sameVote id_ user_email)
    match user_post_like_status with
    | [] =>
      match addNewVote store id_ user_email 1 with
      | some newStore =>
        .ok newStore (total_likes newStore) (total_negative_votes newStore)
          (total_interactions newStore)
      | none => .storeError
    | firstRow :: _ =>
      let user_last_choice := firstRow.current_status
      let new_status : Int :=
        if 0 ≤ direction_of_vote then direction_of_vote
        else |user_last_choice| + direction_of_vote
      let newStore := updateVote store id_ user_email new_status
      .ok newStore (total_likes newStore) (total_negative_votes newStore)
        (total_interactions newStore)

/-- The stored vote status of the caller after an operation: the
`current_status` of the first row for the (post, voter) pair, when one
exists. -/
def statusOf (store : Store) (id_ : Int) (email : String) : Option Int :=
  (store.post_likes.find? (sameVote id_ email)).map VoteRow.current_status

/-- One vote request as received by `like_post`. -/
structure VoteRequest where
  email : String
  direction : Int
  id_ : Int
deriving DecidableEq, Repr

/-- The store after a request: the new store on success; a failed request
leaves the store unchanged (the 401 is raised before any write, and a
rejected INSERT is rolled back, never committed). -/
def stepStore (store : Store) (r : VoteRequest) : Store :=
  match like_post store r.email r.direction r.id_ with
  | .ok s _ _ _ => s
  | _ => store

/-- Does the store hold a post with this id (`posts.id` hit)? -/
def postExists (store : Store) (pid : Int) : Bool :=
  store.posts.any (fun p => p.id = pid)

/-- The reading the claim gives of the returned like count: vote rows joined to an
existing post whose status is positive, across all posts. -/
def claimTotalLikes (store : Store) : Int :=
  (store.post_likes.filter (fun v => postExists store v.post_id && 0 < v.current_status)).length

/-- The reading the claim gives of the returned negative count: vote rows joined
to an existing post whose status is exactly -1. -/
def claimTotalNegativeVotes (store : Store) : Int :=
  (store.post_likes.filter (fun v => postExists store v.post_id && v.current_status = -1)).length

/-- The reading the claim gives of the returned interaction count: all vote rows
joined to an existing post. -/
def claimTotalInteractions (store : Store) : Int :=
  (store.post_likes.filter (fun v => postExists store v.post_id)).length

/-- Every stored vote status lies in the enumerated domain {-1, 0, 1}. -/
def statusesValid (store : Store) : Prop :=
  ∀ v ∈ store.post_likes, v.current_status = -1 ∨ v.current_status = 0 ∨ v.current_status = 1

/-! ## Helper lemmas -/

theorem expClaim_append (data : Claims) (v : JValue)
    (h : "exp" ∉ data.map Prod.fst) :
    expClaim (data ++ [("exp", v)]) = some v := by
  have hnone : data.find? (fun p => p.1 = "exp") = none := by
    rw [List.find?_eq_none]
    intro x hx hp
    have hx1 : x.1 = "exp" := by simpa using hp
    exact h (List.mem_map.mpr ⟨x, hx, hx1⟩)
  simp [expClaim, List.find?_append, hnone]

theorem create_access_token_fresh (secret : String) (ttl now : Int)
    (data : Claims) (hexp : "exp" ∉ data.map Prod.fst) :
    create_access_token secret ttl now data =
      ⟨data ++ [("exp", .num (now + ttl * 60))], secret⟩ := by
  have hmem : ∀ x : JValue, ("exp", x) ∉ data := by
    intro x hx
    exact hexp (List.mem_map.mpr ⟨("exp", x), hx, rfl⟩)
  unfold create_access_token dictUpdate
  rw [if_neg (by simpa using hmem)]

theorem sameVote_set_status (id_ : Int) (email : String) (ns : Int) (v : VoteRow) :
    sameVote id_ email { v with current_status := ns } = sameVote id_ email v := rfl

theorem find_update_status (id_ : Int) (email : String) (ns : Int) :
    ∀ l : List VoteRow, l.filter (sameVote id_ email) ≠ [] →
      ((l.map (fun v => if sameVote id_ email v then
            { v with current_status := ns } else v)).find?
          (sameVote id_ email)).map VoteRow.current_status = some ns := by
  intro l
  induction l with
  | nil => intro h; exact absurd rfl h
  | cons a t ih =>
    intro h
    by_cases ha : sameVote id_ email a = true
    · simp [List.find?_cons, ha, sameVote_set_status]
    · have hfil : t.filter (sameVote id_ email) ≠ [] := by
        intro hnil
        exact h (by simp [List.filter_cons, ha, hnil])
      have ht := ih hfil
      simpa [List.find?_cons, ha, sameVote_set_status] using ht

theorem find_append_new (id_ : Int) (email : String) (st : Int)
    (l : List VoteRow) (hl : l.filter (sameVote id_ email) = []) :
    (l ++ [(⟨id_, email, st⟩ : VoteRow)]).find? (sameVote id_ email) =
      some (⟨id_, email, st⟩ : VoteRow) := by
  have hnone : l.find? (sameVote id_ email) = none := by
    rw [List.find?_eq_none]
    intro x hx hpx
    exact (List.filter_eq_nil_iff.mp hl x hx) hpx
  have hsingle : List.find? (sameVote id_ email) [(⟨id_, email, st⟩ : VoteRow)] =
      some (⟨id_, email, st⟩ : VoteRow) := by
    simp [List.find?_cons, sameVote]
  rw [List.find?_append, hnone, Option.none_or, hsingle]

theorem filter_map_update (id_ : Int) (email : String) (ns : Int) (l : List VoteRow) :
    (l.map (fun v => if sameVote id_ email v then
        { v with current_status := ns } else v)).filter (sameVote id_ email) =
      (l.filter (sameVote id_ email)).map (fun v => if sameVote id_ email v then
        { v with current_status := ns } else v) := by
  induction l with
  | nil => rfl
  | cons a t ih =>
    by_cases ha : sameVote id_ email a = true
    · simp [List.filter_cons, List.map_cons, ha, sameVote_set_status, ih]
    · simp [List.filter_cons, List.map_cons, ha, sameVote_set_status, ih]

theorem addNewVote_posts (store s : Store) (id_ : Int) (email : String) (st : Int)
    (h : addNewVote store id_ email st = some s) : s.posts = store.posts := by
  unfold addNewVote at h
  split at h
  · cases h; rfl
  · exact absurd h (by simp)

theorem addNewVote_likes (store s : Store) (id_ : Int) (email : String) (st : Int)
    (h : addNewVote store id_ email st = some s) :
    s.post_likes = store.post_likes ++ [⟨id_, email, st⟩] := by
  unfold addNewVote at h
  split at h
  · cases h; rfl
  · exact absurd h (by simp)

/-! ## Claim theorems -/

/-- C2: `verify_post_owner` fails with 403 does-not-exist when no post has
the id, with the development-post 403 for every caller when the owner
column is NULL, with the not-authorized 403 when the caller differs from
the non-null owner, and falls through (with no store mutation: the
function only reads) exactly when the caller equals the owner. -/
theorem verify_post_owner_cases (store : Store) (post_id : Int)
    (caller method : String) :
    ((∀ p ∈ store.posts, p.id ≠ post_id) →
      verify_post_owner store post_id caller method =
        .httpError 403 ("The post you are trying to " ++ method ++ " does not exist.")) ∧
    (∀ p, store.posts.find? (fun q => q.id = post_id) = some p → p.email = none →
      verify_post_owner store post_id caller method =
        .httpError 403 ("This is a development post, unauthorized users cannot "
          ++ method ++ " it.")) ∧
    (∀ p o, store.posts.find? (fun q => q.id = post_id) = some p → p.email = some o →
      o ≠ caller →
      verify_post_owner store post_id caller method =
        .httpError 403 ("The post is owned by " ++ o ++ ", " ++ caller
          ++ " is not authorized to " ++ method ++ " it.")) ∧
    (verify_post_owner store post_id caller method = .ok ↔
      ∃ p, store.posts.find? (fun q => q.id = post_id) = some p ∧ p.email = some caller) := by
  refine ⟨?_, ?_, ?_, ?_⟩
  · intro hnone
    have : store.posts.find? (fun q => q.id = post_id) = none := by
      rw [List.find?_eq_none]
      intro p hp
      simpa using hnone p hp
    simp [verify_post_owner, this]
  · intro p hfind hmail
    simp [verify_post_owner, hfind, hmail]
  · intro p o hfind hmail hne
    simp [verify_post_owner, hfind, hmail, hne]
  · constructor
    · intro hok
      unfold verify_post_owner at hok
      split at hok
      next heq => exact absurd hok (by simp)
      next p heq =>
        split at hok
        next hmail => exact absurd hok (by simp)
        next o hmail =>
          by_cases hc : o = caller
          · exact ⟨p, heq, hc ▸ hmail⟩
          · rw [if_neg hc] at hok; exact absurd hok (by simp)
    · rintro ⟨p, hfind, hmail⟩
      simp [verify_post_owner, hfind, hmail]

/-- Witness for C2 at a concrete store: a development post (NULL owner)
is refused for a caller. -/
theorem verify_post_owner_cases_witness :
    verify_post_owner ⟨[⟨1, none⟩], []⟩ 1 "a@b.c" "delete" =
      .httpError 403 "This is a development post, unauthorized users cannot delete it." :=
  (verify_post_owner_cases ⟨[⟨1, none⟩], []⟩ 1 "a@b.c" "delete").2.1
    ⟨1, none⟩ (by decide) rfl

/-- C6: a requested direction outside {-1, 0, 1} makes `like_post` raise
HTTP 401 "Forbidden, user can only like, dislike, or neutralize." before
any store access, and the store is unchanged by the request. -/
theorem like_post_invalid_direction (store : Store) (email : String) (d id_ : Int)
    (h1 : d ≠ -1) (h2 : d ≠ 0) (h3 : d ≠ 1) :
    like_post store email d id_ =
      .httpError 401 "Forbidden, user can only like, dislike, or neutralize." ∧
    stepStore store ⟨email, d, id_⟩ = store := by
  have hv : like_post store email d id_ =
      .httpError 401 "Forbidden, user can only like, dislike, or neutralize." := by
    unfold like_post
    rw [if_pos ⟨h1, h2, h3⟩]
  exact ⟨hv, by unfold stepStore; rw [hv]⟩

/-- Witness for C6: direction 2 on a concrete store. -/
theorem like_post_invalid_direction_witness :
    like_post ⟨[⟨1, none⟩], []⟩ "u@x" 2 1 =
      .httpError 401 "Forbidden, user can only like, dislike, or neutralize." ∧
    stepStore ⟨[⟨1, none⟩], []⟩ ⟨"u@x", 2, 1⟩ = ⟨[⟨1, none⟩], []⟩ :=
  like_post_invalid_direction ⟨[⟨1, none⟩], []⟩ "u@x" 2 1
    (by decide) (by decide) (by decide)

/-- C5: voting on a post absent from `posts` does not produce the
documented 404 — `read_table` returns an empty DataFrame (never `None`),
so the `is None` branch is dead; the request reaches the INSERT, which
the foreign key rejects as a store-level error, not an
`HTTPException(404)`. -/
theorem like_post_missing_post_no_404 :
    like_post ⟨[], []⟩ "u@x" 1 7 = .storeError ∧
    LikeResult.storeError ≠
      .httpError 404 "Post not found or user has no previous interaction with this post." := by
  constructor
  · rfl
  · intro h
    exact absurd h (by simp)

/-- C3: decoding a freshly issued bearer token at issue time succeeds and
returns the original claims (with the computed `exp` appended), and
decoding the same token after its expiration has passed fails with
401 "Token has expired". -/
theorem token_roundtrip_and_expiry (secret : String) (ttl now later : Int)
    (data : Claims) (hexp : "exp" ∉ data.map Prod.fst) (httl : 0 < ttl) :
    (decode_access_token secret now
        (some [.junk "Bearer", .tok (create_access_token secret ttl now data)]) =
      .ok (data ++ [("exp", .num (now + ttl * 60))])) ∧
    (now + ttl * 60 < later →
      decode_access_token secret later
          (some [.junk "Bearer", .tok (create_access_token secret ttl now data)]) =
        .httpError 401 "Token has expired") := by
  have hcreate := create_access_token_fresh secret ttl now data hexp
  have hclaim : expClaim (data ++ [("exp", JValue.num (now + ttl * 60))]) =
      some (.num (now + ttl * 60)) := expClaim_append data _ hexp
  constructor
  · have hfresh : ¬ (now + ttl * 60 ≤ now) := by omega
    simp [decode_access_token, hcreate, hclaim, hfresh]
  · intro hlater
    have hle : now + ttl * 60 ≤ later := le_of_lt hlater
    simp [decode_access_token, hcreate, hclaim, hle]

/-- Witness for C3: a concrete claims map, secret and 30-minute TTL. -/
theorem token_roundtrip_and_expiry_witness :
    (decode_access_token "k" 0
        (some [.junk "Bearer",
          .tok (create_access_token "k" 30 0 [("user_email", .str "u@x")])]) =
      .ok ([("user_email", JValue.str "u@x")] ++ [("exp", .num (0 + 30 * 60))])) ∧
    (decode_access_token "k" 1801
        (some [.junk "Bearer",
          .tok (create_access_token "k" 30 0 [("user_email", .str "u@x")])]) =
      .httpError 401 "Token has expired") :=
  ⟨(token_roundtrip_and_expiry "k" 30 0 1801 [("user_email", .str "u@x")]
      (by decide) (by decide)).1,
   (token_roundtrip_and_expiry "k" 30 0 1801 [("user_email", .str "u@x")]
      (by decide) (by decide)).2 (by decide)⟩

/-- C7 counterexample: an `Authorization` header that is a single word
(no space, e.g. `"abc"`) makes `Authorization.split(" ")[1]` raise an
uncaught `IndexError`, an outcome distinct from all three 401 responses
the claim allows. -/
theorem decode_single_word_header_not_401 :
    decode_access_token "secret" 0 (some [.junk "abc"]) = .indexError ∧
    DecodeResult.indexError ≠ .httpError 401 "Authorization header missing" ∧
    DecodeResult.indexError ≠ .httpError 401 "Token has expired" ∧
    DecodeResult.indexError ≠ .httpError 401 "Invalid token" := by
  refine ⟨rfl, ?_, ?_, ?_⟩ <;> intro h <;> exact absurd h (by simp)

/-- C7 amended: a missing header gives 401 "Authorization header
missing"; a header with at least two space-separated words is judged on
its second word — not-a-token or wrong key → 401 "Invalid token", valid
token with `exp ≤ now` → 401 "Token has expired", valid token still
fresh → success; but a header with fewer than two words raises an
uncaught `IndexError` instead of any 401. -/
theorem decode_access_token_outcomes (secret : String) (now e : Int)
    (w0 : Word) (rest : List Word) (s : String) (t : Token) :
    (decode_access_token secret now none =
      .httpError 401 "Authorization header missing") ∧
    (decode_access_token secret now (some []) = .indexError) ∧
    (decode_access_token secret now (some [w0]) = .indexError) ∧
    (decode_access_token secret now (some (w0 :: .junk s :: rest)) =
      .httpError 401 "Invalid token") ∧
    (t.macKey ≠ secret →
      decode_access_token secret now (some (w0 :: .tok t :: rest)) =
        .httpError 401 "Invalid token") ∧
    (t.macKey = secret → expClaim t.payload = some (.num e) → e ≤ now →
      decode_access_token secret now (some (w0 :: .tok t :: rest)) =
        .httpError 401 "Token has expired") ∧
    (t.macKey = secret → expClaim t.payload = some (.num e) → now < e →
      decode_access_token secret now (some (w0 :: .tok t :: rest)) = .ok t.payload) := by
  refine ⟨rfl, rfl, rfl, rfl, ?_, ?_, ?_⟩
  · intro hk
    simp [decode_access_token, hk]
  · intro hk hc hle
    simp [decode_access_token, hk, hc, hle]
  · intro hk hc hlt
    simp [decode_access_token, hk, hc, not_le.mpr hlt]

/-- Witness for the C7 amended theorem: an expired token, a fresh token
and a token signed with the wrong key, on concrete headers. -/
theorem decode_access_token_outcomes_witness :
    (decode_access_token "k" 5 (some [.junk "Bearer", .tok ⟨[("exp", .num 3)], "k"⟩]) =
      .httpError 401 "Token has expired") ∧
    (decode_access_token "k" 5 (some [.junk "Bearer", .tok ⟨[("exp", .num 9)], "k"⟩]) =
      .ok [("exp", .num 9)]) ∧
    (decode_access_token "k" 5 (some [.junk "Bearer", .tok ⟨[("exp", .num 9)], "x"⟩]) =
      .httpError 401 "Invalid token") :=
  ⟨(decode_access_token_outcomes "k" 5 3 (.junk "Bearer") [] ""
      ⟨[("exp", .num 3)], "k"⟩).2.2.2.2.2.1 rfl (by decide) (by decide),
   (decode_access_token_outcomes "k" 5 9 (.junk "Bearer") [] ""
      ⟨[("exp", .num 9)], "k"⟩).2.2.2.2.2.2 rfl (by decide) (by decide),
   (decode_access_token_outcomes "k" 5 9 (.junk "Bearer") [] ""
      ⟨[("exp", .num 9)], "x"⟩).2.2.2.2.1 (by decide)⟩

/-- C1 counterexample: with a stored status of -1 and requested direction
-1, `like_post` stores abs(-1) + (-1) = 0, not the -2 asserted by the
transition table of the claim. -/
theorem dislike_at_minus_one_yields_zero :
    statusOf (stepStore ⟨[⟨1, none⟩], [⟨1, "u@x", -1⟩]⟩ ⟨"u@x", -1, 1⟩) 1 "u@x" = some 0 ∧
    statusOf (stepStore ⟨[⟨1, none⟩], [⟨1, "u@x", -1⟩]⟩ ⟨"u@x", -1, 1⟩) 1 "u@x" ≠
      some (-2) := by
  constructor
  · decide
  · decide

/-- C1 amended: the transition table of `like_post`: no row for the pair
(and an existing post, so the INSERT passes the foreign key) → a row with
status 1 regardless of the direction; existing row and direction 0 or 1 →
status = direction; existing row with first status X and direction -1 →
status = abs(X) - 1, so 1 ↦ 0, 0 ↦ -1, and -1 ↦ 0. -/
theorem like_post_transition_table (store : Store) (email : String) (d id_ : Int)
    (hd : d = -1 ∨ d = 0 ∨ d = 1) :
    (store.post_likes.filter (sameVote id_ email) = [] → postExists store id_ = true →
      ∃ s tl tn ti, like_post store email d id_ = .ok s tl tn ti ∧
        statusOf s id_ email = some 1) ∧
    (∀ v rest, store.post_likes.filter (sameVote id_ email) = v :: rest → 0 ≤ d →
      ∃ s tl tn ti, like_post store email d id_ = .ok s tl tn ti ∧
        statusOf s id_ email = some d) ∧
    (∀ v rest, store.post_likes.filter (sameVote id_ email) = v :: rest → d = -1 →
      ∃ s tl tn ti, like_post store email d id_ = .ok s tl tn ti ∧
        statusOf s id_ email = some (|v.current_status| - 1)) := by
  have hvalid : ¬ (d ≠ -1 ∧ d ≠ 0 ∧ d ≠ 1) := by
    rcases hd with h | h | h <;> simp [h]
  refine ⟨?_, ?_, ?_⟩
  · intro hfil hpost
    obtain ⟨s₀, hadd⟩ : ∃ s₀, addNewVote store id_ email 1 = some s₀ := by
      unfold addNewVote
      rw [if_pos (by unfold postExists at hpost; exact hpost)]
      exact ⟨_, rfl⟩
    have hlikes := addNewVote_likes store s₀ id_ email 1 hadd
    have heq : like_post store email d id_ =
        .ok s₀ (total_likes s₀) (total_negative_votes s₀) (total_interactions s₀) := by
      unfold like_post
      rw [if_neg hvalid]
      simp only [hfil, hadd]
    have hstat : statusOf s₀ id_ email = some 1 := by
      unfold statusOf
      rw [hlikes, find_append_new id_ email 1 store.post_likes hfil]
      rfl
    exact ⟨_, _, _, _, heq, hstat⟩
  · intro v rest hfil h0
    have heq : like_post store email d id_ =
        .ok (updateVote store id_ email d) (total_likes (updateVote store id_ email d))
          (total_negative_votes (updateVote store id_ email d))
          (total_interactions (updateVote store id_ email d)) := by
      unfold like_post
      rw [if_neg hvalid]
      simp only [hfil, if_pos h0]
    have hstat : statusOf (updateVote store id_ email d) id_ email = some d := by
      unfold statusOf updateVote
      exact find_update_status id_ email d store.post_likes (by rw [hfil]; simp)
    exact ⟨_, _, _, _, heq, hstat⟩
  · intro v rest hfil hneg
    have h0 : ¬ (0 ≤ d) := by omega
    have heq : like_post store email d id_ =
        .ok (updateVote store id_ email (|v.current_status| + d))
          (total_likes (updateVote store id_ email (|v.current_status| + d)))
          (total_negative_votes (updateVote store id_ email (|v.current_status| + d)))
          (total_interactions (updateVote store id_ email (|v.current_status| + d))) := by
      unfold like_post
      rw [if_neg hvalid]
      simp only [hfil, if_neg h0]
    have hstat : statusOf (updateVote store id_ email (|v.current_status| + d)) id_ email =
        some (|v.current_status| - 1) := by
      unfold statusOf updateVote
      have hfind := find_update_status id_ email (|v.current_status| + d)
        store.post_likes (by rw [hfil]; simp)
      rw [hfind, hneg]
      norm_num [sub_eq_add_neg]
    exact ⟨_, _, _, _, heq, hstat⟩

/-- Witness for the C1 amended theorem: a voter with stored status 1 who
requests direction -1 ends at status 0. -/
theorem like_post_transition_table_witness :
    ∃ s tl tn ti,
      like_post ⟨[⟨1, none⟩], [⟨1, "u@x", 1⟩]⟩ "u@x" (-1) 1 = .ok s tl tn ti ∧
      statusOf s 1 "u@x" = some (|(1 : Int)| - 1) :=
  (like_post_transition_table ⟨[⟨1, none⟩], [⟨1, "u@x", 1⟩]⟩ "u@x" (-1) 1
      (by decide)).2.2 ⟨1, "u@x", 1⟩ [] (by decide) rfl

theorem like_post_update_eq (store : Store) (email : String) (d id_ : Int)
    (hvalid : ¬ (d ≠ -1 ∧ d ≠ 0 ∧ d ≠ 1)) (h0 : (0 : Int) ≤ d)
    (v : VoteRow) (rest : List VoteRow)
    (hfil : store.post_likes.filter (sameVote id_ email) = v :: rest) :
    like_post store email d id_ =
      .ok (updateVote store id_ email d) (total_likes (updateVote store id_ email d))
        (total_negative_votes (updateVote store id_ email d))
        (total_interactions (updateVote store id_ email d)) := by
  unfold like_post
  rw [if_neg hvalid]
  simp only [hfil, if_pos h0]

/-- C8 counterexample: a voter who never interacted and requests
direction 0 twice: the first request records status 1 (first interaction
always records a like), the second records status 0 — the two final
statuses differ. -/
theorem direction_zero_twice_not_idempotent :
    statusOf (stepStore ⟨[⟨1, none⟩], []⟩ ⟨"u@x", 0, 1⟩) 1 "u@x" = some 1 ∧
    statusOf (stepStore (stepStore ⟨[⟨1, none⟩], []⟩ ⟨"u@x", 0, 1⟩) ⟨"u@x", 0, 1⟩)
      1 "u@x" = some 0 ∧
    some (1 : Int) ≠ some (0 : Int) := by
  refine ⟨by decide, by decide, by decide⟩

/-- C8 amended: for a (post, voter) pair that already has a vote row,
applying the same direction d ∈ {0, 1} twice yields the same final
status after each of the two applications, namely d itself. -/
theorem like_post_idempotent_on_existing (store : Store) (email : String)
    (d id_ : Int) (hd : d = 0 ∨ d = 1) (v : VoteRow) (rest : List VoteRow)
    (hfil : store.post_likes.filter (sameVote id_ email) = v :: rest) :
    statusOf (stepStore store ⟨email, d, id_⟩) id_ email = some d ∧
    statusOf (stepStore (stepStore store ⟨email, d, id_⟩) ⟨email, d, id_⟩) id_ email =
      some d := by
  have hvalid : ¬ (d ≠ -1 ∧ d ≠ 0 ∧ d ≠ 1) := by rcases hd with h | h <;> simp [h]
  have h0 : (0 : Int) ≤ d := by rcases hd with h | h <;> simp [h]
  have heq1 := like_post_update_eq store email d id_ hvalid h0 v rest hfil
  have hstep1 : stepStore store ⟨email, d, id_⟩ = updateVote store id_ email d := by
    unfold stepStore
    rw [heq1]
  have hstat1 : statusOf (updateVote store id_ email d) id_ email = some d := by
    unfold statusOf updateVote
    exact find_update_status id_ email d store.post_likes (by rw [hfil]; simp)
  have hfil2 : (updateVote store id_ email d).post_likes.filter (sameVote id_ email) =
      (if sameVote id_ email v then { v with current_status := d } else v) ::
        rest.map (fun w => if sameVote id_ email w then
          { w with current_status := d } else w) := by
    show (store.post_likes.map _).filter _ = _
    rw [filter_map_update, hfil]
    rfl
  have heq2 := like_post_update_eq (updateVote store id_ email d) email d id_
    hvalid h0 _ _ hfil2
  have hstep2 : stepStore (updateVote store id_ email d) ⟨email, d, id_⟩ =
      updateVote (updateVote store id_ email d) id_ email d := by
    unfold stepStore
    rw [heq2]
  have hstat2 : statusOf (updateVote (updateVote store id_ email d) id_ email d)
      id_ email = some d := by
    unfold statusOf updateVote
    exact find_update_status id_ email d (updateVote store id_ email d).post_likes
      (by rw [hfil2]; simp)
  rw [hstep1, hstep2]
  exact ⟨hstat1, hstat2⟩

/-- Witness for the C8 amended theorem: an existing row with status -1,
direction 1 applied twice, status 1 after each application. -/
theorem like_post_idempotent_on_existing_witness :
    statusOf (stepStore ⟨[⟨1, none⟩], [⟨1, "u@x", -1⟩]⟩ ⟨"u@x", 1, 1⟩) 1 "u@x" =
      some 1 ∧
    statusOf (stepStore (stepStore ⟨[⟨1, none⟩], [⟨1, "u@x", -1⟩]⟩ ⟨"u@x", 1, 1⟩)
      ⟨"u@x", 1, 1⟩) 1 "u@x" = some 1 :=
  like_post_idempotent_on_existing ⟨[⟨1, none⟩], [⟨1, "u@x", -1⟩]⟩ "u@x" 1 1
    (Or.inr rfl) ⟨1, "u@x", -1⟩ [] (by decide)

theorem like_post_ok_statusesValid (store s : Store) (email : String)
    (d id_ tl tn ti : Int)
    (hok : like_post store email d id_ = .ok s tl tn ti)
    (h : statusesValid store) : statusesValid s := by
  unfold like_post at hok
  by_cases hval : d ≠ -1 ∧ d ≠ 0 ∧ d ≠ 1
  · rw [if_pos hval] at hok
    exact absurd hok (by simp)
  rw [if_neg hval] at hok
  have hd : d = -1 ∨ d = 0 ∨ d = 1 := by omega
  cases hfil : store.post_likes.filter (sameVote id_ email) with
  | nil =>
    simp only [hfil] at hok
    cases hadd : addNewVote store id_ email 1 with
    | some s₀ =>
      simp only [hadd, LikeResult.ok.injEq] at hok
      obtain ⟨rfl, -, -, -⟩ := hok
      intro v hv
      rw [addNewVote_likes store s₀ id_ email 1 hadd] at hv
      rcases List.mem_append.mp hv with hv | hv
      · exact h v hv
      · simp only [List.mem_singleton] at hv
        subst hv
        right; right; rfl
    | none =>
      simp only [hadd] at hok
      exact absurd hok (by simp)
  | cons firstRow restRows =>
    simp only [hfil, LikeResult.ok.injEq] at hok
    obtain ⟨rfl, -, -, -⟩ := hok
    have hfirst : firstRow ∈ store.post_likes :=
      List.mem_of_mem_filter (p := sameVote id_ email)
        (by rw [hfil]; exact List.mem_cons_self firstRow restRows)
    have hfstat := h firstRow hfirst
    intro v hv
    unfold updateVote at hv
    obtain ⟨w, hw, hwe⟩ := List.mem_map.mp hv
    by_cases hsw : sameVote id_ email w = true
    · rw [← hwe, if_pos hsw]
      show (if (0:Int) ≤ d then d else |firstRow.current_status| + d) = -1 ∨
        (if (0:Int) ≤ d then d else |firstRow.current_status| + d) = 0 ∨
        (if (0:Int) ≤ d then d else |firstRow.current_status| + d) = 1
      by_cases h0 : (0 : Int) ≤ d
      · rw [if_pos h0]
        rcases hd with h' | h' | h' <;> simp [h']
      · rw [if_neg h0]
        have hdneg : d = -1 := by omega
        rcases hfstat with h' | h' | h' <;> rw [h', hdneg] <;> norm_num
    · rw [← hwe, if_neg hsw]
      exact h w hw

theorem statusesValid_step (store : Store) (r : VoteRequest)
    (h : statusesValid store) : statusesValid (stepStore store r) := by
  unfold stepStore
  cases hres : like_post store r.email r.direction r.id_ with
  | ok s tl tn ti =>
    exact like_post_ok_statusesValid store s r.email r.direction r.id_ tl tn ti hres h
  | httpError st dt => exact h
  | storeError => exact h

/-- C9 counterexample: repeated dislikes do not pass through -2. From
stored status 0, two dislike requests give statuses -1 then 0 (since
abs(-1) - 1 = 0), where the cycle in the claim 0 → -1 → -2 → 1 predicts -2
after the second dislike. -/
theorem repeated_dislikes_avoid_minus_two :
    statusOf (List.foldl stepStore ⟨[⟨1, none⟩], [⟨1, "u@x", 0⟩]⟩
      [⟨"u@x", -1, 1⟩, ⟨"u@x", -1, 1⟩]) 1 "u@x" = some 0 ∧
    statusOf (List.foldl stepStore ⟨[⟨1, none⟩], [⟨1, "u@x", 0⟩]⟩
      [⟨"u@x", -1, 1⟩, ⟨"u@x", -1, 1⟩]) 1 "u@x" ≠ some (-2) := by
  constructor <;> decide

/-- C9 amended: from a store whose statuses all lie in {-1, 0, 1}
(including the no-row case), every sequence of `like_post` requests keeps
every stored status within {-1, 0, 1}: the dislike transition
abs(previous) - 1 maps -1 to 0, so -2 is never stored and repeated
dislikes alternate 0 → -1 → 0 → ... -/
theorem like_post_sequence_invariant (reqs : List VoteRequest) (store : Store)
    (h : statusesValid store) : statusesValid (List.foldl stepStore store reqs) := by
  induction reqs generalizing store with
  | nil => exact h
  | cons r rs ih => exact ih (stepStore store r) (statusesValid_step store r h)

/-- Witness for the C9 amended theorem: a like then two dislikes starting
from an empty vote table. -/
theorem like_post_sequence_invariant_witness :
    statusesValid (List.foldl stepStore ⟨[⟨1, none⟩], []⟩
      [⟨"u@x", 1, 1⟩, ⟨"u@x", -1, 1⟩, ⟨"u@x", -1, 1⟩]) :=
  like_post_sequence_invariant [⟨"u@x", 1, 1⟩, ⟨"u@x", -1, 1⟩, ⟨"u@x", -1, 1⟩]
    ⟨[⟨1, none⟩], []⟩ (by intro v hv; exact absurd hv (by simp))

theorem length_filter_or {α : Type} (a b : α → Bool) (l : List α)
    (h : ∀ x ∈ l, ¬(a x = true ∧ b x = true)) :
    (l.filter (fun x => a x || b x)).length =
      (l.filter a).length + (l.filter b).length := by
  induction l with
  | nil => rfl
  | cons x t ih =>
    have ht := ih (fun y hy => h y (List.mem_cons_of_mem x hy))
    cases hax : a x <;> cases hbx : b x
    · simp [List.filter_cons, hax, hbx]
      omega
    · simp [List.filter_cons, hax, hbx]
      omega
    · simp [List.filter_cons, hax, hbx]
      omega
    · exact absurd ⟨hax, hbx⟩ (h x (List.mem_cons_self x t))

theorem length_filter_disjoint_le {α : Type} (a b : α → Bool) (l : List α)
    (h : ∀ x ∈ l, ¬(a x = true ∧ b x = true)) :
    (l.filter a).length + (l.filter b).length ≤ l.length := by
  rw [← length_filter_or a b l h]
  exact List.length_filter_le _ l

theorem join_filter_length (posts : List PostRow) (likes : List VoteRow)
    (r : VoteRow → Bool) (hnd : (posts.map PostRow.id).Nodup) :
    ((posts.flatMap (fun p => likes.filter (fun v => v.post_id = p.id))).filter r).length =
      (likes.filter (fun v => posts.any (fun p => p.id = v.post_id) && r v)).length := by
  induction posts with
  | nil => simp
  | cons p ps ih =>
    have hpid : p.id ∉ ps.map PostRow.id := (List.nodup_cons.mp hnd).1
    have hnd' : (ps.map PostRow.id).Nodup := (List.nodup_cons.mp hnd).2
    rw [List.flatMap_cons, List.filter_append, List.length_append, ih hnd',
      List.filter_filter]
    have hsplit : (likes.filter
        (fun v => (p :: ps).any (fun q => q.id = v.post_id) && r v)).length =
        (likes.filter (fun v => r v && decide (v.post_id = p.id))).length +
          (likes.filter (fun v => ps.any (fun q => q.id = v.post_id) && r v)).length := by
      rw [← length_filter_or]
      · apply congrArg List.length
        apply List.filter_congr
        intro v hv
        cases hr : r v
        · simp [hr]
        · cases hp : decide (v.post_id = p.id) with
          | true =>
            have : p.id = v.post_id := ((of_decide_eq_true hp)).symm
            simp [List.any_cons, hr, hp, this]
          | false =>
            have : ¬ (p.id = v.post_id) :=
              fun he => absurd (decide_eq_true he.symm) (by simp [hp])
            simp [List.any_cons, hr, hp, this]
      · intro v hv hcontra
        obtain ⟨h1, h2⟩ := hcontra
        have hv1 : v.post_id = p.id := by
          have := (Bool.and_eq_true _ _).mp h1
          exact of_decide_eq_true this.2
        have hv2 : ∃ q ∈ ps, q.id = v.post_id := by
          have := (Bool.and_eq_true _ _).mp h2
          simpa using this.1
        obtain ⟨q, hq, hqid⟩ := hv2
        exact hpid (List.mem_map.mpr ⟨q, hq, by rw [hqid, hv1]⟩)
    rw [hsplit]

theorem like_post_ok_inversion (store s : Store) (email : String)
    (d id_ tl tn ti : Int)
    (hok : like_post store email d id_ = .ok s tl tn ti) :
    tl = total_likes s ∧ tn = total_negative_votes s ∧ ti = total_interactions s ∧
    s.posts = store.posts := by
  unfold like_post at hok
  by_cases hval : d ≠ -1 ∧ d ≠ 0 ∧ d ≠ 1
  · rw [if_pos hval] at hok
    exact absurd hok (by simp)
  rw [if_neg hval] at hok
  cases hfil : store.post_likes.filter (sameVote id_ email) with
  | nil =>
    simp only [hfil] at hok
    cases hadd : addNewVote store id_ email 1 with
    | some s₀ =>
      simp only [hadd, LikeResult.ok.injEq] at hok
      obtain ⟨rfl, h1, h2, h3⟩ := hok
      exact ⟨h1.symm, h2.symm, h3.symm, addNewVote_posts store s₀ id_ email 1 hadd⟩
    | none =>
      simp only [hadd] at hok
      exact absurd hok (by simp)
  | cons firstRow restRows =>
    simp only [hfil, LikeResult.ok.injEq] at hok
    obtain ⟨rfl, h1, h2, h3⟩ := hok
    exact ⟨h1.symm, h2.symm, h3.symm, rfl⟩

theorem claim_counts_eq (s : Store) (hnd : (s.posts.map PostRow.id).Nodup) :
    total_likes s = claimTotalLikes s ∧
    total_negative_votes s = claimTotalNegativeVotes s ∧
    total_interactions s = claimTotalInteractions s := by
  refine ⟨?_, ?_, ?_⟩
  · unfold total_likes claimTotalLikes joinRows postExists
    rw [join_filter_length s.posts s.post_likes _ hnd]
  · unfold total_negative_votes claimTotalNegativeVotes joinRows postExists
    rw [join_filter_length s.posts s.post_likes _ hnd]
  · unfold total_interactions claimTotalInteractions joinRows postExists
    rw [show (s.posts.flatMap (fun p => s.post_likes.filter (fun v => v.post_id = p.id))).length =
        ((s.posts.flatMap (fun p => s.post_likes.filter (fun v => v.post_id = p.id))).filter
          (fun _ => true)).length by rw [List.filter_true]]
    rw [join_filter_length s.posts s.post_likes _ hnd]
    apply congrArg Int.ofNat
    apply congrArg List.length
    apply List.filter_congr
    intro v hv
    simp

/-- C4: under the posts primary key (distinct ids), the aggregate
returned by a successful `like_post` equals: total_likes = count of vote
rows with status > 0, total_negative_votes = count of vote rows with
status = -1, total_interactions = count of all vote rows, each counted
over the rows joined to an existing post, across all posts. -/
theorem like_post_aggregates (store s : Store) (email : String)
    (d id_ tl tn ti : Int) (hnd : (store.posts.map PostRow.id).Nodup)
    (h : like_post store email d id_ = .ok s tl tn ti) :
    tl = claimTotalLikes s ∧ tn = claimTotalNegativeVotes s ∧
    ti = claimTotalInteractions s := by
  obtain ⟨h1, h2, h3, hposts⟩ := like_post_ok_inversion store s email d id_ tl tn ti h
  obtain ⟨e1, e2, e3⟩ := claim_counts_eq s (by rw [hposts]; exact hnd)
  exact ⟨h1.trans e1, h2.trans e2, h3.trans e3⟩

/-- Witness for C4: one prior dislike by another voter, then a like. -/
theorem like_post_aggregates_witness :
    (1 : Int) = claimTotalLikes ⟨[⟨1, none⟩], [⟨1, "v@x", -1⟩, ⟨1, "u@x", 1⟩]⟩ ∧
    (1 : Int) = claimTotalNegativeVotes ⟨[⟨1, none⟩], [⟨1, "v@x", -1⟩, ⟨1, "u@x", 1⟩]⟩ ∧
    (2 : Int) = claimTotalInteractions ⟨[⟨1, none⟩], [⟨1, "v@x", -1⟩, ⟨1, "u@x", 1⟩]⟩ :=
  like_post_aggregates ⟨[⟨1, none⟩], [⟨1, "v@x", -1⟩]⟩
    ⟨[⟨1, none⟩], [⟨1, "v@x", -1⟩, ⟨1, "u@x", 1⟩]⟩ "u@x" 1 1 1 1 2
    (by decide) (by decide)

/-- C10: every aggregate returned by a successful `like_post` satisfies
total_likes + total_negative_votes ≤ total_interactions: rows with a
positive status and rows with status -1 are disjoint subsets of the
joined rows. -/
theorem like_post_aggregate_inequality (store s : Store) (email : String)
    (d id_ tl tn ti : Int)
    (h : like_post store email d id_ = .ok s tl tn ti) :
    tl + tn ≤ ti := by
  obtain ⟨h1, h2, h3, -⟩ := like_post_ok_inversion store s email d id_ tl tn ti h
  subst h1
  subst h2
  subst h3
  unfold total_likes total_negative_votes total_interactions
  have hle := length_filter_disjoint_le (fun v => decide (0 < v.current_status))
    (fun v => decide (v.current_status = -1)) (joinRows s) ?_
  · exact_mod_cast hle
  · intro v hv hcontra
    obtain ⟨hp, hq⟩ := hcontra
    have hp' : 0 < v.current_status := of_decide_eq_true hp
    have hq' : v.current_status = -1 := of_decide_eq_true hq
    omega

/-- Witness for C10: a single like on an empty vote table gives
1 + 0 ≤ 1. -/
theorem like_post_aggregate_inequality_witness : (1 : Int) + 0 ≤ 1 :=
  like_post_aggregate_inequality ⟨[⟨1, none⟩], []⟩ ⟨[⟨1, none⟩], [⟨1, "u@x", 1⟩]⟩
    "u@x" 1 1 1 0 1 (by decide)

end SocialApp
